import Mathlib

/-!
Verification of the agenticBE core pipeline: the tool-calling conversation
loop (`app/agents/loop.py`), the event publisher (`app/services/events.py`),
the job orchestrator and webhook delivery worker (`app/workers/celery_app.py`),
and webhook signing (`app/services/webhooks.py`).

Python JSON-like values are embedded as the inductive `Json`; Python `None`
is `Json.null` (the two coincide under `json` round-trips, and the loop only
ever tests `is not None` on values that came from `json`-serializable tool
returns). Machine-level hashing (HMAC-SHA256) is embedded bit-faithfully
over byte lists with `Nat` arithmetic mod 2^32.
-/

/-- JSON-like Python values (dicts keep insertion order, as Python does). -/
inductive Json where
  | null : Json
  | bool : Bool → Json
  | num : Int → Json
  | str : String → Json
  | arr : List Json → Json
  | obj : List (String × Json) → Json
deriving Repr

/-- Lowercase hex digit. -/
def hexDigit (n : Nat) : Char :=
  if n < 10 then Char.ofNat (48 + n) else Char.ofNat (87 + n)

/-- Two lowercase hex digits of a byte. -/
def hexByte (b : Nat) : String :=
  String.mk [hexDigit (b / 16), hexDigit (b % 16)]

/-- Lowercase hex of a byte list, as `bytes.hex()` / `hexdigest()` produce. -/
def hexdigest (bs : List Nat) : String :=
  String.join (bs.map hexByte)

/-- `json.dumps` escaping of one character (`ensure_ascii=False`). -/
def escChar (c : Char) : String :=
  if c = '"' then "\\\""
  else if c = '\\' then "\\\\"
  else if c = '\n' then "\\n"
  else if c = '\t' then "\\t"
  else if c = '\r' then "\\r"
  else if c.toNat = 8 then "\\b"
  else if c.toNat = 12 then "\\f"
  else if c.toNat < 32 then "\\u00" ++ hexByte c.toNat
  else String.singleton c

/-- A JSON string literal as `json.dumps` writes it. -/
def jsonQuote (s : String) : String :=
  "\"" ++ String.join (s.data.map escChar) ++ "\""

mutual

/-- `json.dumps(v, ensure_ascii=False)` with item separator `isep` and
key separator `ksep`. -/
def encJson (isep ksep : String) : Json → String
  | Json.null => "null"
  | Json.bool true => "true"
  | Json.bool false => "false"
  | Json.num n => toString n
  | Json.str s => jsonQuote s
  | Json.arr xs => "[" ++ encItems isep ksep xs ++ "]"
  | Json.obj kvs => "\x7b" ++ encFields isep ksep kvs ++ "\x7d"

/-- Array items joined by `isep`. -/
def encItems (isep ksep : String) : List Json → String
  | [] => ""
  | [x] => encJson isep ksep x
  | x :: xs => encJson isep ksep x ++ isep ++ encItems isep ksep xs

/-- `"key"<ksep>value` object fields joined by `isep`. -/
def encFields (isep ksep : String) : List (String × Json) → String
  | [] => ""
  | [kv] => jsonQuote kv.1 ++ ksep ++ encJson isep ksep kv.2
  | kv :: kvs => jsonQuote kv.1 ++ ksep ++ encJson isep ksep kv.2 ++ isep ++ encFields isep ksep kvs

end

/-- Compact serialization: `json.dumps(v, separators=(",", ":"), ensure_ascii=False)`,
as `sign_payload` uses. -/
def compactJson : Json → String := encJson "," ":"

/-- Default-separator serialization: `json.dumps(v)` (separators `", "` and `": "`),
as the loop uses for message contents. -/
def dumpsJson : Json → String := encJson ", " ": "

/-- UTF-8 encoding of one code point. -/
def utf8EncodeChar (n : Nat) : List Nat :=
  if n < 128 then [n]
  else if n < 2048 then [192 + n / 64, 128 + n % 64]
  else if n < 65536 then [224 + n / 4096, 128 + (n / 64) % 64, 128 + n % 64]
  else [240 + n / 262144, 128 + (n / 4096) % 64, 128 + (n / 64) % 64, 128 + n % 64]

/-- `str.encode()`: UTF-8 bytes of a string. -/
def utf8Bytes (s : String) : List Nat :=
  s.data.foldr (fun c acc => utf8EncodeChar c.toNat ++ acc) []

/-! ## SHA-256 (FIPS 180-4) over byte lists, words as `Nat` mod 2^32 -/

/-- 2^32. -/
def M32 : Nat := 4294967296

/-- Rotate a 32-bit word right by `n`. -/
def rotr32 (x n : Nat) : Nat :=
  ((x >>> n) ||| (x <<< (32 - n))) % M32

/-- SHA-256 Σ₀. -/
def sumFn0 (x : Nat) : Nat := (rotr32 x 2) ^^^ (rotr32 x 13) ^^^ (rotr32 x 22)

/-- SHA-256 Σ₁. -/
def sumFn1 (x : Nat) : Nat := (rotr32 x 6) ^^^ (rotr32 x 11) ^^^ (rotr32 x 25)

/-- SHA-256 σ₀. -/
def sigFn0 (x : Nat) : Nat := (rotr32 x 7) ^^^ (rotr32 x 18) ^^^ (x >>> 3)

/-- SHA-256 σ₁. -/
def sigFn1 (x : Nat) : Nat := (rotr32 x 17) ^^^ (rotr32 x 19) ^^^ (x >>> 10)

/-- SHA-256 Ch. -/
def chFn (x y z : Nat) : Nat := (x &&& y) ^^^ ((x ^^^ (M32 - 1)) &&& z)

/-- SHA-256 Maj. -/
def majFn (x y z : Nat) : Nat := (x &&& y) ^^^ (x &&& z) ^^^ (y &&& z)

/-- SHA-256 round constants. -/
def sha256K : Array Nat := #[
  1116352408, 1899447441, 3049323471, 3921009573,
  961987163, 1508970993, 2453635748, 2870763221,
  3624381080, 310598401, 607225278, 1426881987,
  1925078388, 2162078206, 2614888103, 3248222580,
  3835390401, 4022224774, 264347078, 604807628,
  770255983, 1249150122, 1555081692, 1996064986,
  2554220882, 2821834349, 2952996808, 3210313671,
  3336571891, 3584528711, 113926993, 338241895,
  666307205, 773529912, 1294757372, 1396182291,
  1695183700, 1986661051, 2177026350, 2456956037,
  2730485921, 2820302411, 3259730800, 3345764771,
  3516065817, 3600352804, 4094571909, 275423344,
  430227734, 506948616, 659060556, 883997877,
  958139571, 1322822218, 1537002063, 1747873779,
  1955562222, 2024104815, 2227730452, 2361852424,
  2428436474, 2756734187, 3204031479, 3329325298]

/-- Working variables of the compression function. -/
structure Sha256State where
  a : Nat
  b : Nat
  c : Nat
  d : Nat
  e : Nat
  f : Nat
  g : Nat
  h0 : Nat
deriving DecidableEq, Repr

/-- SHA-256 initial hash value. -/
def sha256Init : Sha256State :=
  ⟨1779033703, 3144134277, 1013904242, 2773480762,
   1359893119, 2600822924, 528734635, 1541459225⟩

/-- One compression round with schedule word `w` and constant `k`. -/
def sha256round (w k : Nat) (s : Sha256State) : Sha256State :=
  let t1 := (s.h0 + sumFn1 s.e + chFn s.e s.f s.g + k + w) % M32
  let t2 := (sumFn0 s.a + majFn s.a s.b s.c) % M32
  ⟨(t1 + t2) % M32, s.a, s.b, s.c, (s.d + t1) % M32, s.e, s.f, s.g⟩

/-- Extend a 16-word block to the 64-word message schedule. -/
def sha256schedule (block : List Nat) : Array Nat :=
  (List.range 48).foldl
    (fun w _ =>
      let n := w.size
      w.push ((sigFn1 (w[n - 2]!) + w[n - 7]! + sigFn0 (w[n - 15]!) + w[n - 16]!) % M32))
    block.toArray

/-- Compress one 16-word block into the running hash state. -/
def compressBlock (h : Sha256State) (block : List Nat) : Sha256State :=
  let w := sha256schedule block
  let s := (List.range 64).foldl (fun s i => sha256round (w[i]!) (sha256K[i]!) s) h
  ⟨(h.a + s.a) % M32, (h.b + s.b) % M32, (h.c + s.c) % M32, (h.d + s.d) % M32,
   (h.e + s.e) % M32, (h.f + s.f) % M32, (h.g + s.g) % M32, (h.h0 + s.h0) % M32⟩

/-- Big-endian bytes of `n` in `count` bytes. -/
def beBytes (n count : Nat) : List Nat :=
  (List.range count).map (fun i => (n >>> (8 * (count - 1 - i))) % 256)

/-- SHA-256 padding: append 0x80, zeros, and the 64-bit bit length. -/
def sha256pad (msg : List Nat) : List Nat :=
  let l := msg.length
  let k := (120 - ((l + 1) % 64)) % 64
  msg ++ 128 :: List.replicate k 0 ++ beBytes (l * 8) 8

/-- Group bytes into big-endian 32-bit words. -/
def bytesToWords : List Nat → List Nat
  | a :: b :: c :: d :: rest => (((a * 256 + b) * 256 + c) * 256 + d) :: bytesToWords rest
  | _ => []

/-- Split a word list into 16-word blocks (`fuel` bounds the recursion). -/
def splitBlocks : Nat → List Nat → List (List Nat)
  | 0, _ => []
  | _ + 1, [] => []
  | n + 1, ws => ws.take 16 :: splitBlocks n (ws.drop 16)

/-- SHA-256 digest (32 bytes) of a byte list. -/
def sha256 (msg : List Nat) : List Nat :=
  let ws := bytesToWords (sha256pad msg)
  let s := (splitBlocks ws.length ws).foldl compressBlock sha256Init
  beBytes s.a 4 ++ beBytes s.b 4 ++ beBytes s.c 4 ++ beBytes s.d 4 ++
  beBytes s.e 4 ++ beBytes s.f 4 ++ beBytes s.g 4 ++ beBytes s.h0 4

/-- HMAC-SHA256 (RFC 2104) of `msg` under `key`, as `hmac.new(key, msg, hashlib.sha256)`. -/
def hmacSha256 (key msg : List Nat) : List Nat :=
  let k0 := if key.length > 64 then sha256 key else key
  let kpad := k0 ++ List.replicate (64 - k0.length) 0
  sha256 ((kpad.map (fun b => b ^^^ 0x5c)) ++ sha256 ((kpad.map (fun b => b ^^^ 0x36)) ++ msg))

/-- `app/services/webhooks.py` `sign_payload`: hex HMAC-SHA256 of the compact
JSON serialization of the payload, under the deployment secret (default
`"change-me"`), prefixed with the algorithm tag. -/
def sign_payload (secret : String) (payload : Json) : String :=
  "sha256=" ++ hexdigest (hmacSha256 (utf8Bytes secret) (utf8Bytes (compactJson payload)))

/-! ## Conversation loop (`app/agents/loop.py`, `Runner.arun`)

The model is abstracted as a script of responses (`ModelStep`), `json.loads`
on keyword-argument strings as a parameter `jsonParse` (returning `none` when
the string is not parseable), and the bound tool set as a partial map from
name to a total function returning either a value or a raised exception's
text. Python `None` is `Json.null`. -/

/-- The `args` / `function.arguments` field of a tool-call dict:
either a string or a keyword dict. -/
inductive ArgsVal where
  | vstr : String → ArgsVal
  | vdict : List (String × Json) → ArgsVal
deriving Repr

/-- One requested tool call as the loop reads it: `tc.get("name")`,
`tc.get("function", {}).get("name")`, `tc.get("args")`,
`tc.get("function", {}).get("arguments")`, `tc.get("id")`;
`none` models a missing key / `None` value. -/
structure ToolCall where
  name : Option String
  functionName : Option String
  args : Option ArgsVal
  functionArgs : Option ArgsVal
  id : Option String
deriving Repr

/-- Python `a or b` on strings-or-None (`""` and `None` are falsy). -/
def pyOr (a b : Option String) : Option String :=
  match a with
  | some s => if s = "" then b else some s
  | none => b

/-- Python truthiness of an args value (`""` and `{}` are falsy). -/
def argsTruthy : ArgsVal → Bool
  | ArgsVal.vstr s => !(s == "")
  | ArgsVal.vdict d => !d.isEmpty

/-- Python `a or b` on args values. -/
def pyOrArgs (a b : Option ArgsVal) : Option ArgsVal :=
  match a with
  | some v => if argsTruthy v then some v else b
  | none => b

/-- `tc.get("name") or tc.get("function", {}).get("name")`. -/
def effName (tc : ToolCall) : Option String :=
  pyOr tc.name tc.functionName

/-- `tc.get("args") or tc.get("function", {}).get("arguments") or "{}"`. -/
def effRawArgs (tc : ToolCall) : ArgsVal :=
  match pyOrArgs tc.args tc.functionArgs with
  | some v => v
  | none => ArgsVal.vstr "\x7b\x7d"

/-- Argument resolution: a string payload goes through `json.loads`, with a
parse failure treated as empty arguments; a dict payload is used as is
(`raw_args or {}`). -/
def resolveArgs (jsonParse : String → Option (List (String × Json))) (tc : ToolCall) :
    List (String × Json) :=
  match effRawArgs tc with
  | ArgsVal.vstr s => (jsonParse s).getD []
  | ArgsVal.vdict d => d

/-- f-string rendering of an optional string (`f"{None}"` is `"None"`). -/
def nameStr : Option String → String
  | none => "None"
  | some s => s

/-- Python `a or d` yielding a string default for falsy `a`. -/
def pyOrD (a : Option String) (d : String) : String :=
  match a with
  | some s => if s = "" then d else s
  | none => d

/-- Outcome of calling a tool function: a returned value (Python `None`
is `Json.null`) or a raised exception's `str(e)`. -/
inductive ToolOutcome where
  | ok : Json → ToolOutcome
  | raised : String → ToolOutcome

/-- A conversation message. -/
inductive Msg where
  | system : String → Msg
  | human : String → Msg
  | ai : String → List ToolCall → Msg
  | tool : String → String → String → Msg
deriving Repr

/-- Is a message a `ToolMessage`? -/
def Msg.isTool : Msg → Bool
  | Msg.tool _ _ _ => true
  | _ => false

/-- One emitted Event, as `emit_event(tenant, job, step, status, payload)`
records it (tenant and job ids are fixed per run and omitted). -/
structure Ev where
  step : String
  status : String
  payload : Json
deriving Repr

/-- One model invocation outcome in the scripted run: an exception from
`llm_with_tools.ainvoke`, or a response with content and requested tool
calls (`[]` models an absent/None/empty `tool_calls`). -/
inductive ModelStep where
  | mfail : String → ModelStep
  | mresp : String → List ToolCall → ModelStep

/-- Json encoding of an optional string for event payloads. -/
def optStrJson : Option String → Json
  | none => Json.null
  | some s => Json.str s

/-- Json encoding of an args value for event payloads. -/
def argsValJson : ArgsVal → Json
  | ArgsVal.vstr s => Json.str s
  | ArgsVal.vdict d => Json.obj d

/-- Json encoding of one tool-call dict for event payloads. -/
def toolCallJson (tc : ToolCall) : Json :=
  Json.obj [("name", optStrJson tc.name),
            ("args", match tc.args with | none => Json.null | some v => argsValJson v),
            ("id", optStrJson tc.id)]

/-- Json encoding of the `tool_calls` value (`None` when empty/absent). -/
def toolCallsJson : List ToolCall → Json
  | [] => Json.null
  | l => Json.arr (l.map toolCallJson)

/-- Loop state threaded through one run: the transcript, the emitted events,
`last_tool_result` (`Json.null` is Python `None`), and a ghost trace of the
executed (name-resolved) tool calls with their recorded results. -/
structure CallSt where
  msgs : List Msg
  events : List Ev
  last : Json
  executed : List (Option String × Json)

/-- `tool_map.get(name)` (a `None` name is not a key). -/
def lookupTool (toolMap : String → Option (List (String × Json) → ToolOutcome)) :
    Option String → Option (List (String × Json) → ToolOutcome)
  | none => none
  | some n => toolMap n

/-- `try: res = fn(**args) ... except Exception as e: res = {"error": str(e)}`. -/
def toolRes (fn : List (String × Json) → ToolOutcome) (args : List (String × Json)) : Json :=
  match fn args with
  | ToolOutcome.ok v => v
  | ToolOutcome.raised e => Json.obj [("error", Json.str e)]

/-- The synthesized unknown-tool result `{"error": f"Unknown tool '{name}'"}`. -/
def unknownErr (name : Option String) : Json :=
  Json.obj [("error", Json.str ("Unknown tool \x27" ++ nameStr name ++ "\x27"))]

/-- Body of `for tc in tool_calls`: resolve name and arguments; an unknown
name synthesizes an error tool-result and moves on; a known tool is called,
an exception becoming `{"error": str(e)}`, and its result is recorded as
`last_tool_result`. -/
def procCall (jsonParse : String → Option (List (String × Json)))
    (toolMap : String → Option (List (String × Json) → ToolOutcome))
    (st : CallSt) (tc : ToolCall) : CallSt :=
  let name := effName tc
  let args := resolveArgs jsonParse tc
  match lookupTool toolMap name with
  | some fn =>
      let res := toolRes fn args
      { msgs := st.msgs ++ [Msg.tool (dumpsJson res) (pyOrD tc.id "") (nameStr name)]
        events := st.events ++
          [⟨"act", "progress",
            Json.obj [("tool", optStrJson name), ("args", Json.obj args), ("result", res)]⟩]
        last := res
        executed := st.executed ++ [(name, res)] }
  | none =>
      let err := unknownErr name
      { st with
        msgs := st.msgs ++ [Msg.tool (dumpsJson err) (pyOrD tc.id "") (pyOrD name "tool")]
        events := st.events ++
          [⟨"act", "progress", Json.obj [("tool", optStrJson name), ("error", err)]⟩] }

/-- Process a round's tool calls in request order. -/
def procCalls (jsonParse : String → Option (List (String × Json)))
    (toolMap : String → Option (List (String × Json) → ToolOutcome))
    (st : CallSt) : List ToolCall → CallSt
  | [] => st
  | tc :: rest => procCalls jsonParse toolMap (procCall jsonParse toolMap st tc) rest

/-- Result of a normally-returning run: transcript, events, executed-call
trace, the final response's content, and the returned value (model text
returned as `Json.str`). -/
structure RunResult where
  msgs : List Msg
  events : List Ev
  executed : List (Option String × Json)
  finalContent : String
  final : Json
deriving Repr

/-- Outcome of a scripted run: normal return, a model-invocation error
propagating out (`raise`), or the script ending while the loop still wanted
another model response. -/
inductive RunOut where
  | ok : RunResult → RunOut
  | modelError : String → RunOut
  | outOfScript : RunOut
deriving Repr

/-- `last_tool_result if last_tool_result is not None else (ai.content or "")`. -/
def finalFrom (last : Json) (content : String) : Json :=
  match last with
  | Json.null => Json.str content
  | v => v

/-- The `(plan, finished)` event of a round. -/
def planFinishedEv (content : String) (calls : List ToolCall) : Ev :=
  ⟨"plan", "finished",
    Json.obj [("assistant", Json.str content), ("tool_calls", toolCallsJson calls)]⟩

/-- The `(act, started)` event of a tool round. -/
def actStartedEv (calls : List ToolCall) : Ev :=
  ⟨"act", "started", Json.obj [("tool_calls", toolCallsJson calls)]⟩

/-- The `(act, finished)` event carrying the final result. -/
def actFinishedEv (final : Json) : Ev :=
  ⟨"act", "finished", Json.obj [("result", final)]⟩

/-- State after appending the round's assistant message and the
`(plan, finished)` event. -/
def roundSt (st : CallSt) (content : String) (calls : List ToolCall) : CallSt :=
  { st with
    msgs := st.msgs ++ [Msg.ai content calls]
    events := st.events ++ [planFinishedEv content calls] }

/-- State after additionally emitting the `(act, started)` event. -/
def actSt (st : CallSt) (calls : List ToolCall) : CallSt :=
  { st with events := st.events ++ [actStartedEv calls] }

/-- The `while True` loop of `Runner.arun`, driven by the model script.
`attempt` is the model-retry counter (never reset). -/
def runLoopAux (jsonParse : String → Option (List (String × Json)))
    (toolMap : String → Option (List (String × Json) → ToolOutcome))
    (retry : Option (String → Nat → Bool)) :
    List ModelStep → Nat → CallSt → RunOut
  | [], _, _ => RunOut.outOfScript
  | ModelStep.mfail e :: rest, attempt, st =>
      if (match retry with | none => false | some f => f e (attempt + 1)) then
        runLoopAux jsonParse toolMap retry rest (attempt + 1) st
      else RunOut.modelError e
  | ModelStep.mresp content calls :: rest, attempt, st =>
      match calls with
      | _ :: _ =>
          runLoopAux jsonParse toolMap retry rest attempt
            (procCalls jsonParse toolMap (actSt (roundSt st content calls) calls) calls)
      | [] =>
          RunOut.ok ⟨(roundSt st content calls).msgs,
            (roundSt st content calls).events ++
              [actFinishedEv (finalFrom (roundSt st content calls).last content)],
            (roundSt st content calls).executed, content,
            finalFrom (roundSt st content calls).last content⟩

/-- The initial transcript: optional system message, then the human message
with the serialized user payload. -/
def initMsgs (system : Option String) (userPayload : Json) : List Msg :=
  (match system with | some s => [Msg.system s] | none => []) ++
  [Msg.human ("Input:\n" ++ dumpsJson userPayload)]

/-- `Runner.arun`: build the initial messages, emit `(plan, started)`, and
run the conversation loop over the model script. -/
def arun (jsonParse : String → Option (List (String × Json)))
    (toolMap : String → Option (List (String × Json) → ToolOutcome))
    (retry : Option (String → Nat → Bool)) (system : Option String)
    (userPayload : Json) (script : List ModelStep) : RunOut :=
  runLoopAux jsonParse toolMap retry script 0
    ⟨initMsgs system userPayload,
     [⟨"plan", "started", Json.obj [("input", userPayload)]⟩],
     Json.null, []⟩

/-- Projection: events of a normally-returning run (`[]` otherwise). -/
def runEvents : RunOut → List Ev
  | RunOut.ok r => r.events
  | _ => []

/-- Projection: transcript of a normally-returning run (`[]` otherwise). -/
def runMsgs : RunOut → List Msg
  | RunOut.ok r => r.msgs
  | _ => []

/-- Projection: executed-call trace of a normally-returning run. -/
def runExecuted : RunOut → List (Option String × Json)
  | RunOut.ok r => r.executed
  | _ => []

/-- Projection: returned final value of a normally-returning run. -/
def runFinal : RunOut → Json
  | RunOut.ok r => r.final
  | _ => Json.null

/-- The result recorded by the most recent `last_tool_result = res`
assignment (`Json.null`, i.e. Python `None`, when no tool ever executed). -/
def lastRecorded (ex : List (Option String × Json)) : Json :=
  (ex.map Prod.snd).getLastD Json.null

/-! ## Event publisher (`app/services/events.py`, `emit_event`) -/

/-- An effect performed by `emit_event`. -/
inductive EmitAct where
  | storeCommit : EmitAct
  | published : EmitAct

/-- `emit_event` effect sequencing: the Event row is added and committed
inside the tenant session, then the envelope is published on the job's
channel. `store` and `pub` are the outcomes of those two operations; the
result is the list of effects performed, in order, paired with the
exception propagated to the caller, if any. Neither operation is guarded
by an exception handler in the source. -/
def emit_event (store pub : Except String Unit) : List EmitAct × Option String :=
  match store with
  | Except.error e => ([], some e)
  | Except.ok _ =>
    match pub with
    | Except.error e => ([EmitAct.storeCommit], some e)
    | Except.ok _ => ([EmitAct.storeCommit, EmitAct.published], none)

/-! ## Webhook delivery attempt (`app/workers/celery_app.py`, `deliver_webhook`) -/

/-- The mutable columns of a `WebhookDelivery` row touched by an attempt. -/
structure WebhookDelivery where
  status : String
  attempts : Nat
  last_error : Option String
deriving DecidableEq, Repr

/-- Outcome of the HTTP POST of one attempt: a response with its status
code and body text, or a network error (`str(e)` of the raised exception). -/
inductive AttemptOutcome where
  | response : Nat → String → AttemptOutcome
  | netError : String → AttemptOutcome

/-- The error text `f"HTTP {r.status_code}: {r.text[:200]}"`. -/
def httpErrText (code : Nat) (body : String) : String :=
  "HTTP " ++ toString code ++ ": " ++ body.take 200

/-- One `deliver_webhook` attempt on a found row: a 2xx response commits
`sent`/`attempts+1`/no error and returns; anything else commits
`retrying`/`attempts+1`/the error text and re-raises (second component
`true`) so the queue schedules a retry. -/
def attemptOnce (d : WebhookDelivery) (o : AttemptOutcome) : WebhookDelivery × Bool :=
  match o with
  | AttemptOutcome.response code body =>
      if 200 ≤ code ∧ code < 300 then
        ({ status := "sent", attempts := d.attempts + 1, last_error := none }, false)
      else
        ({ status := "retrying", attempts := d.attempts + 1,
           last_error := some (httpErrText code body) }, true)
  | AttemptOutcome.netError e =>
      ({ status := "retrying", attempts := d.attempts + 1, last_error := some e }, true)

/-- A chain of delivery attempts as the retrying queue produces it: each
attempt that re-raises is followed by the next; a non-raising (successful)
attempt is terminal. -/
def runAttempts (d : WebhookDelivery) : List AttemptOutcome → WebhookDelivery
  | [] => d
  | o :: os =>
      match attemptOnce d o with
      | (d1, true) => runAttempts d1 os
      | (d1, false) => d1

/-- Does an attempt outcome fail (non-2xx response or network error)? -/
def failingOutcome : AttemptOutcome → Prop
  | AttemptOutcome.response code _ => ¬(200 ≤ code ∧ code < 300)
  | AttemptOutcome.netError _ => True

/-! ## Job orchestrator terminal write (`app/workers/celery_app.py`, `run_agent_job`) -/

/-- A storage/broadcast effect of the terminal-state block of `run_agent_job`. -/
inductive DbAct where
  | setJobFailed : String → DbAct
  | setJobSucceeded : Json → DbAct
  | publish : Json → DbAct
  | createDelivery : String → Json → DbAct
  | commitTx : DbAct

/-- Python truthiness of an optional string (`if webhook_url:`). -/
def strTruthy : Option String → Bool
  | none => false
  | some s => !(s == "")

/-- The `async with SessionLocal() as session:` terminal block of
`run_agent_job`: locate the job row (`jobFound` tells whether it exists);
a missing row does nothing; otherwise persist failed/succeeded state,
publish the notice, create the webhook delivery when a URL was supplied,
and commit. `error` is the error captured from agent resolution/execution,
`result` the loop's returned value. -/
def completeJob (jobFound : Bool) (jobId : String) (error : Option String)
    (result : Json) (webhook : Option String) : List DbAct :=
  if jobFound then
    match error with
    | some e =>
        [DbAct.setJobFailed e,
         DbAct.publish (Json.obj [("event", Json.str "failed"), ("error", Json.str e)])] ++
        (if strTruthy webhook then
           [DbAct.createDelivery "job.failed"
             (Json.obj [("job_id", Json.str jobId), ("error", Json.str e)])]
         else []) ++ [DbAct.commitTx]
    | none =>
        [DbAct.setJobSucceeded (Json.obj [("result", result)]),
         DbAct.publish (Json.obj [("event", Json.str "succeeded")])] ++
        (if strTruthy webhook then
           [DbAct.createDelivery "job.succeeded"
             (Json.obj [("job_id", Json.str jobId), ("result", result)])]
         else []) ++ [DbAct.commitTx]
  else []

/-! ## Shared concrete instances used to exercise the models -/

/-- A small concrete tool set: a succeeding tool, a tool returning Python
`None`, and a tool that raises. -/
def exToolMap : String → Option (List (String × Json) → ToolOutcome) :=
  fun n =>
    if n = "lookup" then some (fun _ => ToolOutcome.ok (Json.obj [("v", Json.num 1)]))
    else if n = "retnone" then some (fun _ => ToolOutcome.ok Json.null)
    else if n = "boom" then some (fun _ => ToolOutcome.raised "division by zero")
    else none

/-- A concrete `json.loads` model: parses `"{}"` to the empty dict,
everything else fails. -/
def exParse : String → Option (List (String × Json)) :=
  fun s => if s = "\x7b\x7d" then some [] else none

/-- A tool-call dict carrying only a top-level name and an id. -/
def tcOf (n : String) : ToolCall := ⟨some n, none, none, none, some "1"⟩

/-- The run result of a single-round script with no tool calls. -/
def exRunNoTool : RunResult :=
  ⟨initMsgs none Json.null ++ [Msg.ai "hi" []],
   [⟨"plan", "started", Json.obj [("input", Json.null)]⟩,
    ⟨"plan", "finished", Json.obj [("assistant", Json.str "hi"), ("tool_calls", Json.null)]⟩,
    ⟨"act", "finished", Json.obj [("result", Json.str "hi")]⟩],
   [], "hi", Json.str "hi"⟩

/-- The run result of a two-round script whose one executed tool returned
Python `None` (the `retnone` tool). -/
def exRunNone : RunResult :=
  ⟨initMsgs none Json.null ++
     [Msg.ai "x" [tcOf "retnone"], Msg.tool "null" "1" "retnone", Msg.ai "done" []],
   [⟨"plan", "started", Json.obj [("input", Json.null)]⟩,
    ⟨"plan", "finished",
      Json.obj [("assistant", Json.str "x"), ("tool_calls", toolCallsJson [tcOf "retnone"])]⟩,
    ⟨"act", "started", Json.obj [("tool_calls", toolCallsJson [tcOf "retnone"])]⟩,
    ⟨"act", "progress",
      Json.obj [("tool", Json.str "retnone"), ("args", Json.obj []), ("result", Json.null)]⟩,
    ⟨"plan", "finished", Json.obj [("assistant", Json.str "done"), ("tool_calls", Json.null)]⟩,
    ⟨"act", "finished", Json.obj [("result", Json.str "done")]⟩],
   [(some "retnone", Json.null)], "done", Json.str "done"⟩

/-- The run result of a two-round script whose only requested tool call
named an unknown tool (`nosuch`). -/
def exRunUnknown : RunResult :=
  ⟨initMsgs none Json.null ++
     [Msg.ai "x" [tcOf "nosuch"],
      Msg.tool (dumpsJson (unknownErr (some "nosuch"))) "1" "nosuch", Msg.ai "done" []],
   [⟨"plan", "started", Json.obj [("input", Json.null)]⟩,
    ⟨"plan", "finished",
      Json.obj [("assistant", Json.str "x"), ("tool_calls", toolCallsJson [tcOf "nosuch"])]⟩,
    ⟨"act", "started", Json.obj [("tool_calls", toolCallsJson [tcOf "nosuch"])]⟩,
    ⟨"act", "progress",
      Json.obj [("tool", Json.str "nosuch"), ("error", unknownErr (some "nosuch"))]⟩,
    ⟨"plan", "finished", Json.obj [("assistant", Json.str "done"), ("tool_calls", Json.null)]⟩,
    ⟨"act", "finished", Json.obj [("result", Json.str "done")]⟩],
   [], "done", Json.str "done"⟩

/-- The run result of a two-round script whose executed `lookup` tool
returned `{"v": 1}`. -/
def exRunLookup : RunResult :=
  ⟨initMsgs none Json.null ++
     [Msg.ai "x" [tcOf "lookup"],
      Msg.tool (dumpsJson (Json.obj [("v", Json.num 1)])) "1" "lookup", Msg.ai "done" []],
   [⟨"plan", "started", Json.obj [("input", Json.null)]⟩,
    ⟨"plan", "finished",
      Json.obj [("assistant", Json.str "x"), ("tool_calls", toolCallsJson [tcOf "lookup"])]⟩,
    ⟨"act", "started", Json.obj [("tool_calls", toolCallsJson [tcOf "lookup"])]⟩,
    ⟨"act", "progress",
      Json.obj [("tool", Json.str "lookup"), ("args", Json.obj []),
                ("result", Json.obj [("v", Json.num 1)])]⟩,
    ⟨"plan", "finished", Json.obj [("assistant", Json.str "done"), ("tool_calls", Json.null)]⟩,
    ⟨"act", "finished", Json.obj [("result", Json.obj [("v", Json.num 1)])]⟩],
   [(some "lookup", Json.obj [("v", Json.num 1)])], "done", Json.obj [("v", Json.num 1)]⟩

/-- A transcript suffix made of rounds: each round is one assistant message
followed by that round's tool-result messages. -/
inductive Blocks : List Msg → Prop where
  | nil : Blocks []
  | cons (c : String) (tcs : List ToolCall) (tms rest : List Msg) :
      (∀ m ∈ tms, m.isTool = true) → Blocks rest →
      Blocks (Msg.ai c tcs :: (tms ++ rest))

/-! ## Helper lemmas about the loop -/

/-- Appending an execution record makes it the last recorded result. -/
theorem lastRecorded_concat (ex : List (Option String × Json)) (p : Option String × Json) :
    lastRecorded (ex ++ [p]) = p.2 := by
  simp [lastRecorded]

/-- `procCall` on a known tool name: executes the tool, appends the tool
message and progress event, records the result. -/
theorem procCall_known (jsonParse : String → Option (List (String × Json)))
    (toolMap : String → Option (List (String × Json) → ToolOutcome))
    (st : CallSt) (tc : ToolCall) (fn : List (String × Json) → ToolOutcome)
    (h : lookupTool toolMap (effName tc) = some fn) :
    procCall jsonParse toolMap st tc =
      { msgs := st.msgs ++ [Msg.tool (dumpsJson (toolRes fn (resolveArgs jsonParse tc)))
          (pyOrD tc.id "") (nameStr (effName tc))]
        events := st.events ++ [⟨"act", "progress",
          Json.obj [("tool", optStrJson (effName tc)),
                    ("args", Json.obj (resolveArgs jsonParse tc)),
                    ("result", toolRes fn (resolveArgs jsonParse tc))]⟩]
        last := toolRes fn (resolveArgs jsonParse tc)
        executed := st.executed ++ [(effName tc, toolRes fn (resolveArgs jsonParse tc))] } := by
  simp only [procCall]
  rw [h]

/-- `procCall` on an unknown tool name: synthesizes the error tool-result,
leaves `last_tool_result` and the executed trace untouched. -/
theorem procCall_unknown (jsonParse : String → Option (List (String × Json)))
    (toolMap : String → Option (List (String × Json) → ToolOutcome))
    (st : CallSt) (tc : ToolCall)
    (h : lookupTool toolMap (effName tc) = none) :
    procCall jsonParse toolMap st tc =
      { st with
        msgs := st.msgs ++ [Msg.tool (dumpsJson (unknownErr (effName tc)))
          (pyOrD tc.id "") (pyOrD (effName tc) "tool")]
        events := st.events ++ [⟨"act", "progress",
          Json.obj [("tool", optStrJson (effName tc)), ("error", unknownErr (effName tc))]⟩] } := by
  simp only [procCall]
  rw [h]

/-- Processing a round's calls preserves the invariant that
`last_tool_result` is the last recorded execution result. -/
theorem procCalls_last_inv (jsonParse : String → Option (List (String × Json)))
    (toolMap : String → Option (List (String × Json) → ToolOutcome)) :
    ∀ (calls : List ToolCall) (st : CallSt),
      st.last = lastRecorded st.executed →
      (procCalls jsonParse toolMap st calls).last =
        lastRecorded (procCalls jsonParse toolMap st calls).executed := by
  intro calls
  induction calls with
  | nil => intro st h; simpa [procCalls] using h
  | cons tc rest ih =>
      intro st h
      simp only [procCalls]
      apply ih
      cases hl : lookupTool toolMap (effName tc) with
      | none => rw [procCall_unknown _ _ _ _ hl]; simpa using h
      | some fn => rw [procCall_known _ _ _ _ _ hl]; simp [lastRecorded_concat]

/-- Processing a round's calls only appends execution records, and every
appended record's name resolves in the tool map. -/
theorem procCalls_executed (jsonParse : String → Option (List (String × Json)))
    (toolMap : String → Option (List (String × Json) → ToolOutcome)) :
    ∀ (calls : List ToolCall) (st : CallSt), ∃ newex,
      (procCalls jsonParse toolMap st calls).executed = st.executed ++ newex ∧
      ∀ p ∈ newex, lookupTool toolMap p.1 ≠ none := by
  intro calls
  induction calls with
  | nil => intro st; exact ⟨[], by simp [procCalls], by simp⟩
  | cons tc rest ih =>
      intro st
      simp only [procCalls]
      obtain ⟨newex, he, hk⟩ := ih (procCall jsonParse toolMap st tc)
      cases hl : lookupTool toolMap (effName tc) with
      | none =>
          refine ⟨newex, ?_, hk⟩
          rw [he, procCall_unknown _ _ _ _ hl]
      | some fn =>
          refine ⟨(effName tc, toolRes fn (resolveArgs jsonParse tc)) :: newex, ?_, ?_⟩
          · rw [he, procCall_known _ _ _ _ _ hl]; simp
          · intro p hp
            rcases List.mem_cons.mp hp with h1 | h1
            · subst h1; simp [hl]
            · exact hk p h1

/-- When every call in the round has an unknown name, the round changes
neither the executed trace nor `last_tool_result`. -/
theorem procCalls_all_unknown (jsonParse : String → Option (List (String × Json)))
    (toolMap : String → Option (List (String × Json) → ToolOutcome)) :
    ∀ (calls : List ToolCall) (st : CallSt),
      (∀ tc ∈ calls, lookupTool toolMap (effName tc) = none) →
      (procCalls jsonParse toolMap st calls).executed = st.executed ∧
      (procCalls jsonParse toolMap st calls).last = st.last := by
  intro calls
  induction calls with
  | nil => intro st _; simp [procCalls]
  | cons tc rest ih =>
      intro st h
      simp only [procCalls]
      have hl : lookupTool toolMap (effName tc) = none := h tc (by simp)
      have := ih (procCall jsonParse toolMap st tc) (fun t ht => h t (by simp [ht]))
      rw [procCall_unknown _ _ _ _ hl] at this ⊢
      simpa using this

/-- Processing a round's calls appends only tool messages to the transcript. -/
theorem procCalls_msgs (jsonParse : String → Option (List (String × Json)))
    (toolMap : String → Option (List (String × Json) → ToolOutcome)) :
    ∀ (calls : List ToolCall) (st : CallSt), ∃ tms,
      (procCalls jsonParse toolMap st calls).msgs = st.msgs ++ tms ∧
      ∀ m ∈ tms, m.isTool = true := by
  intro calls
  induction calls with
  | nil => intro st; exact ⟨[], by simp [procCalls], by simp⟩
  | cons tc rest ih =>
      intro st
      simp only [procCalls]
      obtain ⟨tms, he, ht⟩ := ih (procCall jsonParse toolMap st tc)
      cases hl : lookupTool toolMap (effName tc) with
      | none =>
          refine ⟨Msg.tool (dumpsJson (unknownErr (effName tc)))
            (pyOrD tc.id "") (pyOrD (effName tc) "tool") :: tms, ?_, ?_⟩
          · rw [he, procCall_unknown _ _ _ _ hl]; simp
          · intro m hm
            rcases List.mem_cons.mp hm with h1 | h1
            · subst h1; rfl
            · exact ht m h1
      | some fn =>
          refine ⟨Msg.tool (dumpsJson (toolRes fn (resolveArgs jsonParse tc)))
            (pyOrD tc.id "") (nameStr (effName tc)) :: tms, ?_, ?_⟩
          · rw [he, procCall_known _ _ _ _ _ hl]; simp
          · intro m hm
            rcases List.mem_cons.mp hm with h1 | h1
            · subst h1; rfl
            · exact ht m h1

/-- `roundSt` leaves `last_tool_result` untouched. -/
theorem roundSt_last (st : CallSt) (c : String) (calls : List ToolCall) :
    (roundSt st c calls).last = st.last := rfl

/-- `roundSt` leaves the executed trace untouched. -/
theorem roundSt_executed (st : CallSt) (c : String) (calls : List ToolCall) :
    (roundSt st c calls).executed = st.executed := rfl

/-- `actSt` changes neither `last_tool_result` nor the executed trace. -/
theorem actSt_last (st : CallSt) (calls : List ToolCall) :
    (actSt st calls).last = st.last ∧ (actSt st calls).executed = st.executed :=
  ⟨rfl, rfl⟩

/-- A normally-returning loop run computes its final value from the last
recorded execution result and the final response's content, provided the
entry state satisfies the `last_tool_result` invariant. -/
theorem runLoopAux_final (jsonParse : String → Option (List (String × Json)))
    (toolMap : String → Option (List (String × Json) → ToolOutcome))
    (retry : Option (String → Nat → Bool)) :
    ∀ (script : List ModelStep) (attempt : Nat) (st : CallSt) (r : RunResult),
      st.last = lastRecorded st.executed →
      runLoopAux jsonParse toolMap retry script attempt st = RunOut.ok r →
      r.final = finalFrom (lastRecorded r.executed) r.finalContent := by
  intro script
  induction script with
  | nil => intro attempt st r _ h; simp [runLoopAux] at h
  | cons s rest ih =>
      intro attempt st r hinv h
      cases s with
      | mfail e =>
          simp only [runLoopAux] at h
          split at h
          · exact ih _ _ _ hinv h
          · simp at h
      | mresp content calls =>
          cases calls with
          | nil =>
              simp only [runLoopAux] at h
              injection h with h'
              subst h'
              simp [roundSt_last, roundSt_executed, hinv]
          | cons tc tcs =>
              simp only [runLoopAux] at h
              exact ih _ _ _ (procCalls_last_inv jsonParse toolMap (tc :: tcs)
                (actSt (roundSt st content (tc :: tcs)) (tc :: tcs)) hinv) h

/-- A normally-returning loop run only appends execution records, and
every appended record's name resolves in the tool map. -/
theorem runLoopAux_executed (jsonParse : String → Option (List (String × Json)))
    (toolMap : String → Option (List (String × Json) → ToolOutcome))
    (retry : Option (String → Nat → Bool)) :
    ∀ (script : List ModelStep) (attempt : Nat) (st : CallSt) (r : RunResult),
      runLoopAux jsonParse toolMap retry script attempt st = RunOut.ok r →
      ∃ newex, r.executed = st.executed ++ newex ∧
        ∀ p ∈ newex, lookupTool toolMap p.1 ≠ none := by
  intro script
  induction script with
  | nil => intro attempt st r h; simp [runLoopAux] at h
  | cons s rest ih =>
      intro attempt st r h
      cases s with
      | mfail e =>
          simp only [runLoopAux] at h
          split at h
          · exact ih _ _ _ h
          · simp at h
      | mresp content calls =>
          cases calls with
          | nil =>
              simp only [runLoopAux] at h
              injection h with h'
              subst h'
              exact ⟨[], by simp [roundSt_executed], by simp⟩
          | cons tc tcs =>
              simp only [runLoopAux] at h
              obtain ⟨newex2, he2, hk2⟩ := ih _ _ _ h
              obtain ⟨newex1, he1, hk1⟩ :=
                procCalls_executed jsonParse toolMap (tc :: tcs)
                  (actSt (roundSt st content (tc :: tcs)) (tc :: tcs))
              refine ⟨newex1 ++ newex2, ?_, ?_⟩
              · rw [he2, he1]
                simp [actSt, roundSt]
              · intro p hp
                rcases List.mem_append.mp hp with h1 | h1
                · exact hk1 p h1
                · exact hk2 p h1

/-- If every tool call requested anywhere in the script has an unknown
name, a normally-returning run keeps the entry executed trace and
`last_tool_result`. -/
theorem runLoopAux_all_unknown (jsonParse : String → Option (List (String × Json)))
    (toolMap : String → Option (List (String × Json) → ToolOutcome))
    (retry : Option (String → Nat → Bool)) :
    ∀ (script : List ModelStep) (attempt : Nat) (st : CallSt) (r : RunResult),
      (∀ content calls, ModelStep.mresp content calls ∈ script →
        ∀ tc ∈ calls, lookupTool toolMap (effName tc) = none) →
      runLoopAux jsonParse toolMap retry script attempt st = RunOut.ok r →
      r.executed = st.executed ∧ r.final = finalFrom st.last r.finalContent := by
  intro script
  induction script with
  | nil => intro attempt st r _ h; simp [runLoopAux] at h
  | cons s rest ih =>
      intro attempt st r hunk h
      cases s with
      | mfail e =>
          simp only [runLoopAux] at h
          split at h
          · exact ih _ _ _ (fun c calls hm => hunk c calls (by simp [hm])) h
          · simp at h
      | mresp content calls =>
          cases calls with
          | nil =>
              simp only [runLoopAux] at h
              injection h with h'
              subst h'
              exact ⟨roundSt_executed st content [], rfl⟩
          | cons tc tcs =>
              simp only [runLoopAux] at h
              have hcalls : ∀ t ∈ tc :: tcs, lookupTool toolMap (effName t) = none :=
                hunk content (tc :: tcs) (by simp)
              obtain ⟨hex, hlast⟩ :=
                procCalls_all_unknown jsonParse toolMap (tc :: tcs)
                  (actSt (roundSt st content (tc :: tcs)) (tc :: tcs)) hcalls
              obtain ⟨hex', hfin'⟩ :=
                ih _ _ _ (fun c cs hm => hunk c cs (by simp [hm])) h
              rw [hex', hex, hfin', hlast]
              exact ⟨rfl, rfl⟩

/-- The loop never returns a model-invocation error unless the script
contains one: tool behavior alone cannot make the run raise. -/
theorem runLoopAux_no_modelError (jsonParse : String → Option (List (String × Json)))
    (toolMap : String → Option (List (String × Json) → ToolOutcome))
    (retry : Option (String → Nat → Bool)) :
    ∀ (script : List ModelStep) (attempt : Nat) (st : CallSt) (e : String),
      (∀ s ∈ script, ∀ msg, s ≠ ModelStep.mfail msg) →
      runLoopAux jsonParse toolMap retry script attempt st ≠ RunOut.modelError e := by
  intro script
  induction script with
  | nil => intro attempt st e _ h; simp [runLoopAux] at h
  | cons s rest ih =>
      intro attempt st e hnf h
      cases s with
      | mfail m => exact hnf (ModelStep.mfail m) (by simp) m rfl
      | mresp content calls =>
          cases calls with
          | nil =>
              simp only [runLoopAux] at h
              exact RunOut.noConfusion h
          | cons tc tcs =>
              simp only [runLoopAux] at h
              exact ih _ _ _ (fun s hm => hnf s (by simp [hm])) h

/-- A round block (assistant message plus its tool messages) can be
appended to a block-structured transcript suffix. -/
theorem Blocks_snoc (c : String) (tcs : List ToolCall) (acc tms : List Msg)
    (hb : Blocks acc) (ht : ∀ m ∈ tms, m.isTool = true) :
    Blocks (acc ++ Msg.ai c tcs :: tms) := by
  induction hb with
  | nil => simpa using Blocks.cons c tcs tms [] ht Blocks.nil
  | cons c' tcs' tms' rest' ht' hb' ih =>
      have h2 := Blocks.cons c' tcs' tms' (rest' ++ Msg.ai c tcs :: tms) ht' ih
      simpa [List.append_assoc] using h2

/-- A normally-returning loop run appends round blocks to the transcript:
each round's assistant message enters before that round's tool messages. -/
theorem runLoopAux_blocks (jsonParse : String → Option (List (String × Json)))
    (toolMap : String → Option (List (String × Json) → ToolOutcome))
    (retry : Option (String → Nat → Bool)) :
    ∀ (script : List ModelStep) (attempt : Nat) (st : CallSt) (r : RunResult)
      (pre acc : List Msg),
      st.msgs = pre ++ acc → Blocks acc →
      runLoopAux jsonParse toolMap retry script attempt st = RunOut.ok r →
      ∃ rest, r.msgs = pre ++ rest ∧ Blocks rest := by
  intro script
  induction script with
  | nil => intro attempt st r pre acc _ _ h; simp [runLoopAux] at h
  | cons s rest ih =>
      intro attempt st r pre acc hmsgs hb h
      cases s with
      | mfail e =>
          simp only [runLoopAux] at h
          split at h
          · exact ih _ _ _ _ _ hmsgs hb h
          · simp at h
      | mresp content calls =>
          cases calls with
          | nil =>
              simp only [runLoopAux] at h
              injection h with h'
              subst h'
              refine ⟨acc ++ [Msg.ai content []], ?_, ?_⟩
              · show (roundSt st content []).msgs = pre ++ (acc ++ [Msg.ai content []])
                simp [roundSt, hmsgs]
              · simpa using Blocks_snoc content [] acc [] hb (by simp)
          | cons tc tcs =>
              simp only [runLoopAux] at h
              obtain ⟨tms, he, ht⟩ :=
                procCalls_msgs jsonParse toolMap (tc :: tcs)
                  (actSt (roundSt st content (tc :: tcs)) (tc :: tcs))
              refine ih _ _ _ pre (acc ++ Msg.ai content (tc :: tcs) :: tms) ?_ ?_ h
              · rw [he]
                show (roundSt st content (tc :: tcs)).msgs ++ tms = _
                simp [roundSt, hmsgs]
              · exact Blocks_snoc content (tc :: tcs) acc tms hb ht

/-- `finalFrom` returns the recorded value when it is not Python `None`. -/
theorem finalFrom_of_ne_null (v : Json) (c : String) (h : v ≠ Json.null) :
    finalFrom v c = v := by
  cases v
  · exact absurd rfl h
  all_goals rfl

/-- A chain of failing attempts followed by a 2xx attempt ends `sent` with
the attempt counter advanced once per attempt and the error cleared. -/
theorem runAttempts_fail_chain (fails : List AttemptOutcome)
    (code : Nat) (body : String) :
    ∀ (d : WebhookDelivery), (∀ o ∈ fails, failingOutcome o) →
      200 ≤ code → code < 300 →
      runAttempts d (fails ++ [AttemptOutcome.response code body]) =
        ⟨"sent", d.attempts + fails.length + 1, none⟩ := by
  induction fails with
  | nil =>
      intro d _ h1 h2
      simp [runAttempts, attemptOnce, h1, h2]
  | cons o os ih =>
      intro d hf h1 h2
      have hfo : failingOutcome o := hf o (by simp)
      cases o with
      | response c0 b0 =>
          have hno : ¬(200 ≤ c0 ∧ c0 < 300) := hfo
          simp only [List.cons_append, runAttempts, attemptOnce, if_neg hno, List.append_eq]
          rw [ih _ (fun x hx => hf x (by simp [hx])) h1 h2]
          simp only [List.length_cons]
          congr 1
          show d.attempts + 1 + os.length + 1 = d.attempts + (os.length + 1) + 1
          omega
      | netError e =>
          simp only [List.cons_append, runAttempts, attemptOnce, List.append_eq]
          rw [ih _ (fun x hx => hf x (by simp [hx])) h1 h2]
          simp only [List.length_cons]
          congr 1
          show d.attempts + 1 + os.length + 1 = d.attempts + (os.length + 1) + 1
          omega

/-- C4 (counterexample): in `emit_event`, a failure to publish on the
broadcast channel after a successful store write DOES propagate to the
caller — the claim's "non-fatal" clause fails on the code, which has no
exception handler around the publish. -/
theorem C4_publish_failure_propagates :
    emit_event (Except.ok ()) (Except.error "redis down") =
      ([EmitAct.storeCommit], some "redis down") ∧
    (some "redis down" : Option String) ≠ none :=
  ⟨rfl, by simp⟩

/-- C4 (amended): the Event row is committed before any publish (the
publish effect appears only after the store commit, and only if the store
write succeeded); a store failure propagates with nothing performed; a
publish failure after a successful store also propagates, though the
durable store commit has already happened. -/
theorem C4_store_then_publish :
    (∀ (e : String) (pub : Except String Unit),
        emit_event (Except.error e) pub = ([], some e)) ∧
    (∀ e : String, emit_event (Except.ok ()) (Except.error e) =
        ([EmitAct.storeCommit], some e)) ∧
    emit_event (Except.ok ()) (Except.ok ()) =
      ([EmitAct.storeCommit, EmitAct.published], none) ∧
    (∀ (store pub : Except String Unit),
        EmitAct.published ∈ (emit_event store pub).1 →
        (emit_event store pub).1 = [EmitAct.storeCommit, EmitAct.published]) := by
  refine ⟨fun e pub => rfl, fun e => rfl, rfl, ?_⟩
  intro store pub hmem
  cases store with
  | error e => simp [emit_event] at hmem
  | ok u =>
      cases pub with
      | error e => simp [emit_event] at hmem
      | ok v => cases u; cases v; rfl

/-- C4 (witness): the amended behavior at concrete outcomes. -/
theorem C4_store_then_publish_witness :
    emit_event (Except.error "db down") (Except.ok ()) = ([], some "db down") ∧
    (emit_event (Except.ok ()) (Except.ok ())).1 =
      [EmitAct.storeCommit, EmitAct.published] :=
  ⟨C4_store_then_publish.1 "db down" (Except.ok ()),
   C4_store_then_publish.2.2.2 (Except.ok ()) (Except.ok ()) (by simp [emit_event])⟩

/-- C6: one delivery attempt with a 2xx response persists
`sent`/`attempts+1`/no error; a non-2xx response or network error persists
`retrying`/`attempts+1`/the error text and re-raises; consequently a
delivery failing its first N attempts and succeeding on attempt N+1 ends
with attempts = N+1, status `sent`, and the error cleared. -/
theorem C6_delivery_attempt_semantics :
    (∀ (d : WebhookDelivery) (code : Nat) (body : String),
        200 ≤ code → code < 300 →
        attemptOnce d (AttemptOutcome.response code body) =
          (⟨"sent", d.attempts + 1, none⟩, false)) ∧
    (∀ (d : WebhookDelivery) (code : Nat) (body : String),
        ¬(200 ≤ code ∧ code < 300) →
        attemptOnce d (AttemptOutcome.response code body) =
          (⟨"retrying", d.attempts + 1, some (httpErrText code body)⟩, true)) ∧
    (∀ (d : WebhookDelivery) (e : String),
        attemptOnce d (AttemptOutcome.netError e) =
          (⟨"retrying", d.attempts + 1, some e⟩, true)) ∧
    (∀ (fails : List AttemptOutcome) (code : Nat) (body : String),
        (∀ o ∈ fails, failingOutcome o) → 200 ≤ code → code < 300 →
        runAttempts ⟨"pending", 0, none⟩ (fails ++ [AttemptOutcome.response code body]) =
          ⟨"sent", fails.length + 1, none⟩) := by
  refine ⟨?_, ?_, ?_, ?_⟩
  · intro d code body h1 h2; simp [attemptOnce, h1, h2]
  · intro d code body h; simp [attemptOnce, h]
  · intro d e; rfl
  · intro fails code body hf h1 h2
    simpa using runAttempts_fail_chain fails code body ⟨"pending", 0, none⟩ hf h1 h2

/-- C6 (witness): two failing attempts (connection error, then HTTP 500)
followed by a 200 end with attempts = 3, status `sent`, no error. -/
theorem C6_delivery_attempt_semantics_witness :
    attemptOnce ⟨"pending", 0, none⟩ (AttemptOutcome.netError "connection refused") =
      (⟨"retrying", 1, some "connection refused"⟩, true) ∧
    runAttempts ⟨"pending", 0, none⟩
        [AttemptOutcome.netError "connection refused",
         AttemptOutcome.response 500 "oops",
         AttemptOutcome.response 200 "ok"] =
      ⟨"sent", 3, none⟩ := by
  refine ⟨C6_delivery_attempt_semantics.2.2.1 ⟨"pending", 0, none⟩ "connection refused", ?_⟩
  have h := C6_delivery_attempt_semantics.2.2.2
    [AttemptOutcome.netError "connection refused", AttemptOutcome.response 500 "oops"]
    200 "ok" (by intro o ho; fin_cases ho <;> simp [failingOutcome]) (by decide) (by decide)
  simpa using h

set_option maxRecDepth 10000 in
/-- C7: the webhook signature is a deterministic function of the canonical
compact serialization (equal serializations give equal signatures, so
recomputation reproduces the stored signature exactly); it always carries
the `sha256=` algorithm tag; and mutating the payload changes the
signature (shown at a concrete one-character mutation under the default
secret). -/
theorem C7_signature_roundtrip :
    (∀ (secret : String) (p q : Json), compactJson p = compactJson q →
        sign_payload secret p = sign_payload secret q) ∧
    (∀ (secret : String) (p : Json), ∃ hexsig,
        sign_payload secret p = "sha256=" ++ hexsig) ∧
    sign_payload "change-me" (Json.obj [("job_id", Json.str "j1"), ("result", Json.str "x")]) ≠
      sign_payload "change-me" (Json.obj [("job_id", Json.str "j1"), ("result", Json.str "y")]) := by
  refine ⟨?_, ?_, ?_⟩
  · intro secret p q h
    unfold sign_payload
    rw [h]
  · intro secret p
    exact ⟨_, rfl⟩
  · decide

/-- C7 (witness): recomputing over the same serialization reproduces the
signature at a concrete payload. -/
theorem C7_signature_roundtrip_witness :
    sign_payload "change-me" (Json.obj [("a", Json.num 1)]) =
      sign_payload "change-me" (Json.obj [("a", Json.num 1)]) :=
  C7_signature_roundtrip.1 "change-me" _ _ rfl

/-- C8: when the job row is missing at completion time, the terminal-state
block performs no storage write, no broadcast, creates no webhook delivery,
and returns normally (the function is total and yields the empty effect
list for any error/result/webhook combination). -/
theorem C8_missing_job_noop (jobId : String) (error : Option String)
    (result : Json) (webhook : Option String) :
    completeJob false jobId error result webhook = [] := by
  simp [completeJob]

/-- C10: on success the job's output is persisted as the wrapper
`{"result": <loop result>}` and the `job.succeeded` webhook payload is
`{"job_id": .., "result": ..}`; on failure the `job.failed` payload is
`{"job_id": .., "error": ..}` and no output write occurs (the effect list
contains no `setJobSucceeded`). -/
theorem C10_terminal_payloads (jobId w : String) (result : Json) (e : String)
    (hw : ¬ w = "") :
    completeJob true jobId none result (some w) =
      [DbAct.setJobSucceeded (Json.obj [("result", result)]),
       DbAct.publish (Json.obj [("event", Json.str "succeeded")]),
       DbAct.createDelivery "job.succeeded"
         (Json.obj [("job_id", Json.str jobId), ("result", result)]),
       DbAct.commitTx] ∧
    completeJob true jobId (some e) result (some w) =
      [DbAct.setJobFailed e,
       DbAct.publish (Json.obj [("event", Json.str "failed"), ("error", Json.str e)]),
       DbAct.createDelivery "job.failed"
         (Json.obj [("job_id", Json.str jobId), ("error", Json.str e)]),
       DbAct.commitTx] := by
  have hwt : strTruthy (some w) = true := by simp [strTruthy, hw]
  constructor <;> simp [completeJob, hwt]

/-- C10 (witness): the terminal effect lists at a concrete job. -/
theorem C10_terminal_payloads_witness :
    completeJob true "job-1" none (Json.str "out") (some "https://h.example/cb") =
      [DbAct.setJobSucceeded (Json.obj [("result", Json.str "out")]),
       DbAct.publish (Json.obj [("event", Json.str "succeeded")]),
       DbAct.createDelivery "job.succeeded"
         (Json.obj [("job_id", Json.str "job-1"), ("result", Json.str "out")]),
       DbAct.commitTx] ∧
    completeJob true "job-1" (some "agent blew up") (Json.str "out")
        (some "https://h.example/cb") =
      [DbAct.setJobFailed "agent blew up",
       DbAct.publish (Json.obj [("event", Json.str "failed"),
         ("error", Json.str "agent blew up")]),
       DbAct.createDelivery "job.failed"
         (Json.obj [("job_id", Json.str "job-1"), ("error", Json.str "agent blew up")]),
       DbAct.commitTx] :=
  C10_terminal_payloads "job-1" "https://h.example/cb" (Json.str "out")
    "agent blew up" (by decide)

/-- C5 (counterexample): a job whose model never requests a tool emits
THREE events — (plan, started), (plan, finished), (act, finished) — not
the two events the claim states, and the third is an act-step event. -/
theorem C5_two_events_counterexample :
    (runEvents (arun exParse exToolMap none none (Json.obj [("topic", Json.str "x")])
        [ModelStep.mresp "hello" []])).map (fun e => (e.step, e.status)) =
      [("plan", "started"), ("plan", "finished"), ("act", "finished")] := rfl

/-- C5 (amended): for a run whose single model response requests no tools,
the loop returns the model's text with exactly the three events
(plan, started), (plan, finished), (act, finished), and the orchestrator
then persists status `succeeded` with output `{"result": <text>}`. -/
theorem C5_no_tool_job (jsonParse : String → Option (List (String × Json)))
    (toolMap : String → Option (List (String × Json) → ToolOutcome))
    (retry : Option (String → Nat → Bool)) (sys : Option String)
    (payload : Json) (c jobId : String) :
    arun jsonParse toolMap retry sys payload [ModelStep.mresp c []] =
      RunOut.ok ⟨initMsgs sys payload ++ [Msg.ai c []],
        [⟨"plan", "started", Json.obj [("input", payload)]⟩,
         planFinishedEv c [], actFinishedEv (Json.str c)],
        [], c, Json.str c⟩ ∧
    completeJob true jobId none (Json.str c) none =
      [DbAct.setJobSucceeded (Json.obj [("result", Json.str c)]),
       DbAct.publish (Json.obj [("event", Json.str "succeeded")]),
       DbAct.commitTx] := by
  constructor
  · rfl
  · simp [completeJob, strTruthy]

/-- C1 (counterexample): a run whose single executed tool call returned
Python `None` — the recorded result of the last executed tool call is
`null`, yet the run returns the model's final text instead, so the claim's
"final equals the last executed tool call's result" fails on the code. -/
theorem C1_none_result_counterexample :
    arun exParse exToolMap none none Json.null
        [ModelStep.mresp "x" [tcOf "retnone"], ModelStep.mresp "done" []] =
      RunOut.ok exRunNone ∧
    exRunNone.executed = [(some "retnone", Json.null)] ∧
    exRunNone.final = Json.str "done" ∧
    Json.str "done" ≠ Json.null :=
  ⟨rfl, rfl, rfl, fun h => Json.noConfusion h⟩

/-- C1 (amended): for every normally-returning run, if the recorded result
of the last executed tool call is not `None`, the returned final result is
exactly that result; if no tool was ever executed OR the last executed
tool call returned `None`, the returned final result is the model's final
textual content. -/
theorem C1_final_selection (jsonParse : String → Option (List (String × Json)))
    (toolMap : String → Option (List (String × Json) → ToolOutcome))
    (retry : Option (String → Nat → Bool)) (sys : Option String)
    (payload : Json) (script : List ModelStep) (r : RunResult)
    (h : arun jsonParse toolMap retry sys payload script = RunOut.ok r) :
    (lastRecorded r.executed ≠ Json.null → r.final = lastRecorded r.executed) ∧
    (lastRecorded r.executed = Json.null → r.final = Json.str r.finalContent) := by
  have hf := runLoopAux_final jsonParse toolMap retry script 0
    ⟨initMsgs sys payload, [⟨"plan", "started", Json.obj [("input", payload)]⟩],
     Json.null, []⟩ r rfl h
  constructor
  · intro hne
    rw [hf, finalFrom_of_ne_null _ _ hne]
  · intro hnull
    rw [hf, hnull]
    rfl

/-- C1 (witness): a run whose executed tool returned `{"v": 1}` has that
value as its final result. -/
theorem C1_final_selection_witness :
    exRunLookup.final = lastRecorded exRunLookup.executed :=
  (C1_final_selection exParse exToolMap none none Json.null
      [ModelStep.mresp "x" [tcOf "lookup"], ModelStep.mresp "done" []]
      exRunLookup rfl).1 (fun h => Json.noConfusion h)

/-- C2: in every normally-returning run, the transcript is the initial
messages followed by round blocks: each round's assistant message enters
the conversation before any of that round's tool-result messages. -/
theorem C2_assistant_before_tools (jsonParse : String → Option (List (String × Json)))
    (toolMap : String → Option (List (String × Json) → ToolOutcome))
    (retry : Option (String → Nat → Bool)) (sys : Option String)
    (payload : Json) (script : List ModelStep) (r : RunResult)
    (h : arun jsonParse toolMap retry sys payload script = RunOut.ok r) :
    ∃ rest, r.msgs = initMsgs sys payload ++ rest ∧ Blocks rest :=
  runLoopAux_blocks jsonParse toolMap retry script 0
    ⟨initMsgs sys payload, [⟨"plan", "started", Json.obj [("input", payload)]⟩],
     Json.null, []⟩ r (initMsgs sys payload) [] (by simp) Blocks.nil h

/-- C2 (witness): the block decomposition of a concrete tool-using run. -/
theorem C2_assistant_before_tools_witness :
    ∃ rest, exRunLookup.msgs = initMsgs none Json.null ++ rest ∧ Blocks rest :=
  C2_assistant_before_tools exParse exToolMap none none Json.null
    [ModelStep.mresp "x" [tcOf "lookup"], ModelStep.mresp "done" []] exRunLookup rfl

/-- C3: tool failures are contained as data: a script with no
model-invocation failure can never make the run propagate an error; an
unknown tool name appends the synthesized `{"error": "Unknown tool ..."}`
tool message, leaves the candidate result and executed trace untouched,
and the loop proceeds; a string argument payload that fails to parse is
treated as empty arguments and the call proceeds; a known tool that raises
becomes the structured result `{"error": str(e)}` and the loop proceeds. -/
theorem C3_tool_failures_contained :
    (∀ (jsonParse : String → Option (List (String × Json)))
       (toolMap : String → Option (List (String × Json) → ToolOutcome))
       (retry : Option (String → Nat → Bool)) (sys : Option String)
       (payload : Json) (script : List ModelStep),
        (∀ s ∈ script, ∀ e, s ≠ ModelStep.mfail e) →
        ∀ e, arun jsonParse toolMap retry sys payload script ≠ RunOut.modelError e) ∧
    (∀ (jsonParse : String → Option (List (String × Json)))
       (toolMap : String → Option (List (String × Json) → ToolOutcome))
       (st : CallSt) (tc : ToolCall),
        lookupTool toolMap (effName tc) = none →
        (procCall jsonParse toolMap st tc).msgs =
          st.msgs ++ [Msg.tool (dumpsJson (unknownErr (effName tc)))
            (pyOrD tc.id "") (pyOrD (effName tc) "tool")] ∧
        (procCall jsonParse toolMap st tc).last = st.last ∧
        (procCall jsonParse toolMap st tc).executed = st.executed) ∧
    (∀ (jsonParse : String → Option (List (String × Json))) (tc : ToolCall) (s : String),
        effRawArgs tc = ArgsVal.vstr s → jsonParse s = none →
        resolveArgs jsonParse tc = []) ∧
    (∀ (jsonParse : String → Option (List (String × Json)))
       (toolMap : String → Option (List (String × Json) → ToolOutcome))
       (st : CallSt) (tc : ToolCall) (fn : List (String × Json) → ToolOutcome) (e : String),
        lookupTool toolMap (effName tc) = some fn →
        fn (resolveArgs jsonParse tc) = ToolOutcome.raised e →
        (procCall jsonParse toolMap st tc).last = Json.obj [("error", Json.str e)] ∧
        (procCall jsonParse toolMap st tc).executed =
          st.executed ++ [(effName tc, Json.obj [("error", Json.str e)])]) := by
  refine ⟨?_, ?_, ?_, ?_⟩
  · intro jsonParse toolMap retry sys payload script hnf e
    exact runLoopAux_no_modelError jsonParse toolMap retry script 0 _ e hnf
  · intro jsonParse toolMap st tc h
    rw [procCall_unknown _ _ _ _ h]
    exact ⟨rfl, rfl, rfl⟩
  · intro jsonParse tc s h1 h2
    unfold resolveArgs
    rw [h1]
    show (jsonParse s).getD [] = []
    rw [h2]
    rfl
  · intro jsonParse toolMap st tc fn e hfn hre
    rw [procCall_known _ _ _ _ _ hfn]
    constructor
    · show toolRes fn (resolveArgs jsonParse tc) = _
      rw [toolRes, hre]
    · show st.executed ++ [(effName tc, toolRes fn (resolveArgs jsonParse tc))] = _
      rw [toolRes, hre]

/-- C3 (witness): the containment cases at concrete inputs — an unknown
name, an unparseable argument string, and a raising tool. -/
theorem C3_tool_failures_contained_witness :
    (arun exParse exToolMap none none Json.null
        [ModelStep.mresp "x" [tcOf "nosuch"], ModelStep.mresp "done" []] ≠
      RunOut.modelError "model down") ∧
    (procCall exParse exToolMap ⟨[], [], Json.null, []⟩ (tcOf "nosuch")).executed = [] ∧
    resolveArgs exParse ⟨some "lookup", none, some (ArgsVal.vstr "not json"), none, none⟩ = [] ∧
    (procCall exParse exToolMap ⟨[], [], Json.null, []⟩ (tcOf "boom")).last =
      Json.obj [("error", Json.str "division by zero")] := by
  refine ⟨?_, ?_, ?_, ?_⟩
  · exact C3_tool_failures_contained.1 exParse exToolMap none none Json.null _
      (by intro s hs e; fin_cases hs <;> simp) "model down"
  · exact (C3_tool_failures_contained.2.1 exParse exToolMap ⟨[], [], Json.null, []⟩
      (tcOf "nosuch") rfl).2.2
  · exact C3_tool_failures_contained.2.2.1 exParse _ "not json" rfl rfl
  · exact (C3_tool_failures_contained.2.2.2 exParse exToolMap ⟨[], [], Json.null, []⟩
      (tcOf "boom") _ "division by zero" rfl rfl).1

/-- C9: the candidate final value is recorded only for tool calls whose
name resolves in the tool map (every entry of the executed trace has a
resolving name), and a normally-returning run whose requested tool calls
all had unknown names executes nothing and returns the model's final
textual content. -/
theorem C9_unknown_names_never_recorded (jsonParse : String → Option (List (String × Json)))
    (toolMap : String → Option (List (String × Json) → ToolOutcome))
    (retry : Option (String → Nat → Bool)) (sys : Option String)
    (payload : Json) (script : List ModelStep) (r : RunResult)
    (h : arun jsonParse toolMap retry sys payload script = RunOut.ok r) :
    (∀ p ∈ r.executed, lookupTool toolMap p.1 ≠ none) ∧
    ((∀ content calls, ModelStep.mresp content calls ∈ script →
        ∀ tc ∈ calls, lookupTool toolMap (effName tc) = none) →
      r.executed = [] ∧ r.final = Json.str r.finalContent) := by
  constructor
  · obtain ⟨newex, he, hk⟩ := runLoopAux_executed jsonParse toolMap retry script 0
      ⟨initMsgs sys payload, [⟨"plan", "started", Json.obj [("input", payload)]⟩],
       Json.null, []⟩ r h
    intro p hp
    rw [he] at hp
    exact hk p (by simpa using hp)
  · intro hunk
    obtain ⟨hex, hfin⟩ := runLoopAux_all_unknown jsonParse toolMap retry script 0
      ⟨initMsgs sys payload, [⟨"plan", "started", Json.obj [("input", payload)]⟩],
       Json.null, []⟩ r hunk h
    exact ⟨hex, hfin⟩

/-- C9 (witness): a run whose only requested call named an unknown tool
executes nothing and returns the model's final text. -/
theorem C9_unknown_names_never_recorded_witness :
    exRunUnknown.executed = [] ∧
    exRunUnknown.final = Json.str exRunUnknown.finalContent :=
  (C9_unknown_names_never_recorded exParse exToolMap none none Json.null
      [ModelStep.mresp "x" [tcOf "nosuch"], ModelStep.mresp "done" []]
      exRunUnknown rfl).2
    (by
      intro c calls hm tc htc
      rcases List.mem_cons.mp hm with h1 | h1
      · injection h1 with hc hcalls
        subst hcalls
        rcases List.mem_cons.mp htc with h2 | h2
        · subst h2; rfl
        · simp at h2
      · rcases List.mem_cons.mp h1 with h2 | h2
        · injection h2 with hc hcalls
          subst hcalls
          simp at htc
        · simp at h2)
